import Mathlib

/-!
Verification of the AI booking-agent backend (FastAPI + Gemini tool-calling
agent).  The definitions below are a shallow embedding of the Python sources:

* `src/backend/database.py` — the `Booking` row and its timestamp;
* `src/backend/tools.py`    — `check_availability` and `book_slot`;
* `src/backend/agent.py`    — `ChatClient` history helpers, `execute_tool`
  and the `process_message` tool-calling loop;
* `src/backend/main.py`     — the per-connection websocket handler
  (`websocket_endpoint` / `process_and_respond`) as an event-step machine.

Python `datetime` values constructed by the code always have minute = 0 and
second = 0 (`datetime.min.time().replace(hour=hour)`), so a timestamp is
embedded as a calendar date plus an hour.  The external model call is an
opaque function returning either a response (a list of parts) or a raised
exception, embedded as `Except String Response`.
-/

namespace BookingAgent

/-- A calendar date as produced by `datetime.strptime(date_str, "%Y-%m-%d")`. -/
structure Date where
  year : Nat
  month : Nat
  day : Nat
deriving DecidableEq, Repr

/-- The `start_time` timestamp: `datetime.combine(target_date,
datetime.min.time().replace(hour=hour))` — minute/second are always 0, so the
value is a date plus an hour.  The hour is an `Int` because it comes from the
tool call's Python `int` argument. -/
structure StartTime where
  date : Date
  hour : Int
deriving DecidableEq, Repr

/-- A row of the bookings table (`database.py`, class `Booking`).  The
`created_at` wall-clock column is metadata never read by any code path and is
omitted.  `id` is the autoincrement primary key, assigned on insert. -/
structure Booking where
  id : Nat
  user_name : String
  start_time : StartTime
deriving DecidableEq, Repr

/-- The bookings table, in insertion order. -/
abbrev Db := List Booking

/-- Split a character list on the dash separator (for `%Y-%m-%d` parsing). -/
def splitDash : List Char → List (List Char)
  | [] => [[]]
  | c :: cs =>
    let r := splitDash cs
    if c = '-' then [] :: r
    else
      match r with
      | [] => [[c]]
      | g :: gs => (c :: g) :: gs

/-- Numeric value of a digit string. -/
def digitsVal (cs : List Char) : Nat :=
  cs.foldl (fun a c => a * 10 + (c.toNat - 48)) 0

/-- Gregorian leap year, as used by Python `datetime` validation. -/
def isLeap (y : Nat) : Bool :=
  (y % 4 == 0 && y % 100 != 0) || y % 400 == 0

/-- Number of days in a month, as used by Python `datetime` validation. -/
def daysInMonth (y m : Nat) : Nat :=
  if m == 2 then (if isLeap y then 29 else 28)
  else if m == 4 || m == 6 || m == 9 || m == 11 then 30
  else 31

/-- `datetime.strptime(date_str, "%Y-%m-%d").date()`: exactly four year
digits, one or two month digits, one or two day digits, dash-separated, whole
string consumed; month/day ranges validated (ValueError on failure embeds as
`none`). -/
def parseDate (s : String) : Option Date :=
  match splitDash s.data with
  | [ys, ms, ds] =>
    if ys.length == 4 && (ms.length == 1 || ms.length == 2)
        && (ds.length == 1 || ds.length == 2)
        && (ys ++ ms ++ ds).all Char.isDigit then
      let y := digitsVal ys
      let m := digitsVal ms
      let d := digitsVal ds
      if 1 ≤ m && m ≤ 12 && 1 ≤ d && d ≤ daysInMonth y m then
        some ⟨y, m, d⟩
      else none
    else none
  | _ => none

/-- Python `sep.join(xs)`. -/
def joinSep (sep : String) : List String → String
  | [] => ""
  | [x] => x
  | x :: y :: ys => x ++ sep ++ joinSep sep (y :: ys)

/-- `f"{h}:00-{h + 1}:00"` — one availability slot label. -/
def fmtSlot (h : Int) : String :=
  toString h ++ ":00-" ++ toString (h + 1) ++ ":00"

/-- `start_time.strftime('%H:%M')` — zero-padded hour, minutes always 00. -/
def fmtHM (h : Int) : String :=
  (if h < 10 then "0" ++ toString h else toString h) ++ ":00"

/-- The range filter of `check_availability`:
`start_time >= midnight(date)` and `start_time < midnight(date + 1 day)`.
A Python `datetime` hour always lies in `[0, 24)`, so the range condition is
exactly "same calendar date" with the hour bound made explicit. -/
def inDayRange (d : Date) (st : StartTime) : Bool :=
  st.date == d && 0 ≤ st.hour && st.hour < 24

/-- Largest id present in the table (0 when empty). -/
def maxId : Db → Nat
  | [] => 0
  | b :: bs => max b.id (maxId bs)

/-- The id the database assigns to the next inserted row (autoincrement
primary key: one more than the largest existing id). -/
def nextId (db : Db) : Nat := maxId db + 1

/-- The literal three characters that open the confirmation message in
`tools.py` line 97 (a mojibake rendering of a check mark, stored verbatim in
the source file). -/
def checkMark : String := "âœ“"

/-- `tools.check_availability(db, date_str)`.  The generic
`except Exception` branch is unreachable in this pure embedding because the
storage query cannot raise. -/
def check_availability (db : Db) (date_str : String) : String :=
  match parseDate date_str with
  | none => "Invalid date format. Please use YYYY-MM-DD format."
  | some target_date =>
    let bookings := db.filter (fun b => inDayRange target_date b.start_time)
    let all_hours : List Int := [9, 10, 11, 12, 13, 14, 15, 16]
    let booked_hours := bookings.map (fun b => b.start_time.hour)
    let available_hours := all_hours.filter (fun h => !(booked_hours.contains h))
    if available_hours.isEmpty then
      "No slots available on " ++ date_str ++ ". All hours from 9 AM to 5 PM are booked."
    else
      "Available slots on " ++ date_str ++ ": "
        ++ joinSep ", " (available_hours.map fmtSlot)

/-- `tools.book_slot(db, user_name, date_str, hour)`.  Returns the result
string together with the table after the call (the table is unchanged on
every non-insert branch).  The generic `except Exception`/rollback branch is
unreachable in this pure embedding because the insert cannot raise. -/
def book_slot (db : Db) (user_name date_str : String) (hour : Int) :
    String × Db :=
  if hour < 9 ∨ hour > 16 then
    ("Invalid hour. Please choose between 9 AM (9) and 4 PM (16).", db)
  else
    match parseDate date_str with
    | none => ("Invalid date format. Please use YYYY-MM-DD format.", db)
    | some target_date =>
      let start_time : StartTime := ⟨target_date, hour⟩
      match db.find? (fun b => b.start_time == start_time) with
      | some booking =>
        ("Time slot conflicts with existing booking at "
          ++ fmtHM booking.start_time.hour ++ ".", db)
      | none =>
        let nb : Booking := ⟨nextId db, user_name, start_time⟩
        (checkMark ++ " Booking confirmed! Confirmation ID: "
          ++ toString nb.id ++ ". " ++ user_name ++ " booked from "
          ++ toString hour ++ ":00 to " ++ toString (hour + 1)
          ++ ":00 on " ++ date_str ++ ".", db ++ [nb])

/-- A transcript message `{"role": ..., "content": ...}` as stored in Redis
and produced by `append_to_history`. -/
structure Msg where
  role : String
  content : String
deriving DecidableEq, Repr

/-- The arguments dictionary of a tool call (`function_call.args`).  The code
reads the named keys `user_name`, `date_str`, `hour`; they are embedded as
typed fields. -/
structure ToolArgs where
  user_name : String
  date_str : String
  hour : Int
deriving DecidableEq, Repr

/-- A `part.function_call`: name plus arguments. -/
structure FunctionCall where
  name : String
  args : ToolArgs
deriving DecidableEq, Repr

/-- One part of a model response: either a function call or plain text. -/
inductive Part where
  | functionCall (fc : FunctionCall)
  | text (s : String)
deriving DecidableEq, Repr

/-- Whether a part is a function call (`part.function_call` is truthy). -/
def Part.isFunctionCall : Part → Bool
  | .functionCall _ => true
  | .text _ => false

/-- A model response: `response.candidates[0].content.parts` (the empty list
embeds a response with no candidates/content/parts). -/
abbrev Response := List Part

/-- `response.text`: the concatenation of the text parts, or `none` (Python
`None`) when the response has no text part. -/
def respText (r : Response) : Option String :=
  let ts := r.filterMap (fun p => match p with | .text s => some s | _ => none)
  if ts.isEmpty then none else some (joinSep "" ts)

/-- `types.FunctionResponse(name=..., response={"result": ...})`. -/
structure FunctionResponse where
  name : String
  result : String
deriving DecidableEq, Repr

/-- An entry of the `contents` list sent to the model: a user text message, a
model text message (both produced by `build_chat_history_for_gemini`), the
model's own tool-call content appended in the loop, or the tool results sent
back with role `user`. -/
inductive Content where
  | user (text : String)
  | model (text : String)
  | modelParts (parts : Response)
  | functionResponses (rs : List FunctionResponse)
deriving DecidableEq, Repr

/-- `ChatClient.get_conversation_history`: the Redis value deserialized, with
every failure (missing key, corrupt payload, read error) degrading to the
empty history via the `except` branch. -/
def get_conversation_history (store : Option (List Msg)) : List Msg :=
  store.getD []

/-- `ChatClient.save_conversation_history`: `setex` the serialized history.
A raised Redis error is caught and logged, leaving the stored value
unchanged; `fails` says whether the write raises. -/
def save_conversation_history (fails : Bool) (store : Option (List Msg))
    (history : List Msg) : Option (List Msg) :=
  if fails then store else some history

/-- `ChatClient.append_to_history`: read-modify-write of one message. -/
def append_to_history (fails : Bool) (store : Option (List Msg))
    (role content : String) : Option (List Msg) :=
  save_conversation_history fails store
    (get_conversation_history store ++ [⟨role, content⟩])

/-- `ChatClient.build_chat_history_for_gemini`: messages with role `user` or
`model` become `Content`s, any other role is skipped. -/
def build_chat_history_for_gemini (history : List Msg) : List Content :=
  history.filterMap (fun msg =>
    if msg.role = "user" then some (Content.user msg.content)
    else if msg.role = "model" then some (Content.model msg.content)
    else none)

/-- `ChatClient.execute_tool`: dispatch on the function name; an unknown name
yields an error string rather than an exception.  Returns the result string
and the bookings table after the call. -/
def execute_tool (db : Db) (function_name : String) (function_args : ToolArgs) :
    String × Db :=
  if function_name = "check_availability" then
    (check_availability db function_args.date_str, db)
  else if function_name = "book_slot" then
    book_slot db function_args.user_name function_args.date_str
      function_args.hour
  else
    ("Error: Unknown function \x27" ++ function_name ++ "\x27", db)

/-- The scan over `response.candidates[0].content.parts` inside
`process_message`: each function-call part is executed in order (threading
the bookings table) and collected as a `FunctionResponse`; text parts are
skipped. -/
def runToolCalls (db : Db) : List Part → List FunctionResponse × Db
  | [] => ([], db)
  | Part.text _ :: ps => runToolCalls db ps
  | Part.functionCall fc :: ps =>
    let rd := execute_tool db fc.name fc.args
    let rest := runToolCalls rd.2 ps
    (⟨fc.name, rd.1⟩ :: rest.1, rest.2)

/-- `has_function_call`: some part of the response is a function call. -/
def hasFunctionCall (r : Response) : Bool :=
  r.any Part.isFunctionCall

/-- The external model call `client.models.generate_content` (an opaque
collaborator): from the contents it produces a response, or raises
(`Except.error` carries `str(e)`). -/
abbrev Gen := List Content → Except String Response

/-- `ChatClient.MAX_TOOL_ITERATIONS`. -/
def MAX_TOOL_ITERATIONS : Nat := 5

/-- State owned by one `ChatClient`: the Redis value under `chat:{session_id}`
(`none` when the key is absent), whether Redis writes raise, and the bookings
table behind `self.db`. -/
structure ChatState where
  store : Option (List Msg)
  storeWriteFails : Bool
  db : Db
deriving Repr

/-- Outcome of the tool-calling `while` loop: the final response (or the
exception raised by a model call inside the loop), the bookings table after
the executed tools (tool effects are committed and survive a later
exception), and the number of completed tool-iterations. -/
structure LoopResult where
  response : Except String Response
  db : Db
  iterations : Nat
deriving Repr

/-- The `while iteration < self.MAX_TOOL_ITERATIONS` loop of
`process_message`, with `fuel` the remaining iterations.  A response with no
parts, or with parts but no function call, breaks the loop; otherwise the
tools run, the model content and the function responses are appended to the
working contents, and the model is re-invoked. -/
def toolLoop (gen : Gen) (fuel : Nat) (current : List Content) (r : Response)
    (db : Db) : LoopResult :=
  match fuel with
  | 0 => ⟨.ok r, db, 0⟩
  | fuel' + 1 =>
    if r.isEmpty then ⟨.ok r, db, 0⟩
    else if hasFunctionCall r then
      let frsdb := runToolCalls db r
      let current1 := current
        ++ [Content.modelParts r, Content.functionResponses frsdb.1]
      match gen current1 with
      | .error e => ⟨.error e, frsdb.2, 0⟩
      | .ok r1 =>
        let res := toolLoop gen fuel' current1 r1 frsdb.2
        ⟨res.response, res.db, res.iterations + 1⟩
    else ⟨.ok r, db, 0⟩

/-- The apology string built in the `except` branch of `process_message`. -/
def apology (e : String) : String :=
  "I apologize, but I encountered an error: " ++ e ++ ". Please try again."

/-- `ChatClient.process_message`: build contents from history plus the user
message, call the model, run the tool loop, extract the final text (with the
`"No Response"` fallback when `response.text` is falsy), append the user
message and the final response to history, and return the response.  Any
exception raised by a model call is caught by the surrounding `except` and
converted to the apology string — on that path history is not touched, but
tool effects on the bookings table already committed remain. -/
def process_message (gen : Gen) (st : ChatState) (user_message : String) :
    String × ChatState :=
  let history := get_conversation_history st.store
  let contents := build_chat_history_for_gemini history
    ++ [Content.user user_message]
  match gen contents with
  | .error e => (apology e, st)
  | .ok response =>
    let lr := toolLoop gen MAX_TOOL_ITERATIONS contents response st.db
    match lr.response with
    | .error e => (apology e, { st with db := lr.db })
    | .ok rfinal =>
      let final_response :=
        match respText rfinal with
        | some t => if t = "" then "No Response" else t
        | none => "No Response"
      let store1 := append_to_history st.storeWriteFails st.store
        "user" user_message
      let store2 := append_to_history st.storeWriteFails store1
        "model" final_response
      (final_response, { st with store := store2, db := lr.db })

/-- The number of tool-iterations a `process_message` call performs (the
value of `iteration` when the loop exits); an exception on the first model
call performs none. -/
def process_message_iterations (gen : Gen) (st : ChatState)
    (user_message : String) : Nat :=
  let contents := build_chat_history_for_gemini
    (get_conversation_history st.store) ++ [Content.user user_message]
  match gen contents with
  | .error _ => 0
  | .ok response =>
    (toolLoop gen MAX_TOOL_ITERATIONS contents response st.db).iterations

/-- The exception raised while talking to the model during a
`process_message` call, if any: either the first `generate_content` call or
one inside the tool loop. -/
def model_error (gen : Gen) (st : ChatState) (user_message : String) :
    Option String :=
  let contents := build_chat_history_for_gemini
    (get_conversation_history st.store) ++ [Content.user user_message]
  match gen contents with
  | .error e => some e
  | .ok response =>
    match (toolLoop gen MAX_TOOL_ITERATIONS contents response st.db).response with
    | .error e => some e
    | .ok _ => none

/-- The outcome of one `process_and_respond` task body: the agent produced a
response (then sent), the task was cancelled at an `await` (the
`asyncio.CancelledError` branch re-raises, sending nothing), or some other
exception `e` reached the generic `except` branch. -/
inductive TurnOutcome where
  | ok (resp : String)
  | cancelled
  | exn (e : String)
deriving DecidableEq, Repr

/-- The text frames `process_and_respond` sends to the websocket for a given
outcome (`main.py` lines 68–82): the response on success, nothing on
cancellation, and `f"Error: {str(e)}"` on any other exception. -/
def process_and_respond_sends : TurnOutcome → List String
  | .ok resp => [resp]
  | .cancelled => []
  | .exn e => ["Error: " ++ e]

/-- The frames the outer handler of `websocket_endpoint` sends when a generic
exception `e` escapes the main loop (`main.py` lines 129–137):
`f"An error occurred: {str(e)}"`, unless that send itself fails, in which
case a `WebSocketException` (close code 1011) ends the connection with no
frame sent. -/
def endpoint_failure_sends (sendFails : Bool) (e : String) : List String :=
  if sendFails then [] else ["An error occurred: " ++ e]

/-- Python `str.strip()` emptiness test: `not new_message.strip()` is true
exactly when every character is whitespace. -/
def isBlank (s : String) : Bool :=
  s.data.all (fun c => [' ', '\t', '\n', '\x0b', '\x0c', '\r'].contains c)

/-- `"\n".join(current_message_buffer)`. -/
def joinNL (buf : List String) : String := joinSep "\n" buf

/-- The text of the `TypeError` raised by `await chat_client.process_message(...)`
(`main.py` line 72): `process_message` is a synchronous `def` returning
`str`, and awaiting a `str` raises this error — after the synchronous body
(including its history appends) has already run to completion. -/
def awaitStrError : String :=
  "object str can\x27t be used in \x27await\x27 expression"

/-- Phase of the per-connection `processing_task`.  `pending ctx`: created by
`asyncio.create_task` over the merged context `ctx` but not yet run.
`ran ctx`: the event loop has run the task up to its first real suspension
point — `process_message(ctx)` is a synchronous call that runs to
completion (appending the transcript pair for `ctx`), then awaiting its
`str` return value raises the `TypeError` `awaitStrError`, which the
generic `except` branch catches, leaving the task suspended at
`await websocket.send_text("Error: " ++ str(e))`.  A task with no entry
(`none`) has delivered its frame and completed. -/
inductive TaskPhase where
  | pending (ctx : String)
  | ran (ctx : String)
deriving DecidableEq, Repr

/-- Observable per-connection state of `websocket_endpoint`:
`current_message_buffer`, the processing task (if alive), the conversation
transcript appended by `process_message`, and the frames delivered to the
client. -/
structure WsState where
  buffer : List String
  task : Option TaskPhase
  history : List Msg
  sent : List String
deriving DecidableEq, Repr

/-- Events of the connection: `recv m` — the main loop returns from
`websocket.receive_text()` with `m` and runs the loop body (blank check,
cancel-and-await of a live task, buffer append, task creation over the
newline-joined buffer); `start` — the event loop first runs the pending
task, executing its synchronous prefix (`process_message`: history append,
response computation, then the `TypeError` from awaiting the returned `str`,
caught by the generic `except`) up to its suspension at the error send;
`deliver` — the suspended error send completes, the task finishes without an
uncaught exception, and its done-callback clears the buffer (the callback
only clears when the task was neither cancelled nor failed). -/
inductive WsEv where
  | recv (m : String)
  | start
  | deliver
deriving DecidableEq, Repr

/-- One step of the connection state machine.  `f ctx` is the string
`process_message` returns for merged input `ctx` (the agent's answer for the
batch); it reaches the transcript, but the frame actually delivered on
`deliver` is the error send `"Error: " ++ awaitStrError`, because awaiting
the synchronous `process_message` always raises before `agent_response`
could be sent.  On `recv`, a live task — pending or suspended at its error
send — is cancelled and awaited: it sends nothing further and appends
nothing further, and its done-callback sees a cancelled future, so the
buffer is kept. -/
def wsStep (f : String → String) (s : WsState) : WsEv → WsState
  | .recv m =>
    if isBlank m then s
    else
      let buf := s.buffer ++ [m]
      { s with buffer := buf, task := some (.pending (joinNL buf)) }
  | .start =>
    match s.task with
    | some (.pending ctx) =>
      { s with
        history := s.history ++ [⟨"user", ctx⟩, ⟨"model", f ctx⟩],
        task := some (.ran ctx) }
    | _ => s
  | .deliver =>
    match s.task with
    | some (.ran _) =>
      { s with sent := s.sent ++ ["Error: " ++ awaitStrError],
               task := none, buffer := [] }
    | _ => s

/-- The state of a fresh connection, right after the greeting frame. -/
def wsInit : WsState := ⟨[], none, [], []⟩

/-- Run a schedule of events from the initial state. -/
def wsRun (f : String → String) (evs : List WsEv) : WsState :=
  evs.foldl (wsStep f) wsInit

/-- The bookings tables reachable from the empty table (created by
`init_db`) through `book_slot` calls — the only operation that writes the
table. -/
inductive ReachableDb : Db → Prop where
  | init : ReachableDb []
  | book : ∀ (db : Db) (u ds : String) (h : Int), ReachableDb db →
      ReachableDb (book_slot db u ds h).2

/-! ## Helper lemmas -/

/-- Every id in the table is at most `maxId`. -/
theorem id_le_maxId (db : Db) : ∀ b ∈ db, b.id ≤ maxId db := by
  induction db with
  | nil => simp
  | cons a l ih =>
    intro b hb
    rcases List.mem_cons.mp hb with hba | hbl
    · subst hba
      exact le_max_left _ _
    · exact le_trans (ih b hbl) (le_max_right _ _)

/-- A part all of whose occurrences are function calls contributes no text,
so `response.text` is `None`. -/
theorem respText_eq_none_of_all_fc (r : Response)
    (hfc : ∀ p ∈ r, p.isFunctionCall = true) : respText r = none := by
  unfold respText
  have hnil : r.filterMap
      (fun p => match p with | .text s => some s | _ => none) = [] := by
    rw [List.filterMap_eq_nil_iff]
    intro p hp
    cases p with
    | functionCall fc => rfl
    | text s => cases hfc _ hp
  rw [hnil]
  rfl

/-! ## Claim theorems -/

/-- C6: for every hour outside `[9, 16]`, and for every user name, date
string and table state, `book_slot` returns the validation message and
leaves the bookings table unchanged. -/
theorem book_slot_invalid_hour (db : Db) (u ds : String) (h : Int)
    (hbad : h < 9 ∨ h > 16) :
    book_slot db u ds h
      = ("Invalid hour. Please choose between 9 AM (9) and 4 PM (16).", db) := by
  unfold book_slot
  rw [if_pos hbad]

/-- C6 witness: hour 17 on a concrete date is rejected and the table stays
empty. -/
theorem book_slot_invalid_hour_witness :
    book_slot [] "Ann" "2026-01-20" 17
      = ("Invalid hour. Please choose between 9 AM (9) and 4 PM (16).", []) :=
  book_slot_invalid_hour [] "Ann" "2026-01-20" 17 (Or.inr (by decide))

/-- C9: a tool-call name outside the fixed registry (neither
`check_availability` nor `book_slot`) makes `execute_tool` return a
plain-text error naming the unknown function, leaving the table unchanged
and raising nothing (the embedding is a total function). -/
theorem execute_tool_unknown_name (db : Db) (name : String) (args : ToolArgs)
    (h1 : name ≠ "check_availability") (h2 : name ≠ "book_slot") :
    execute_tool db name args
      = ("Error: Unknown function \x27" ++ name ++ "\x27", db) := by
  unfold execute_tool
  rw [if_neg h1, if_neg h2]

/-- C9 witness: the unregistered name `cancel_booking` yields the error
result. -/
theorem execute_tool_unknown_name_witness :
    execute_tool [] "cancel_booking" ⟨"", "", 0⟩
      = ("Error: Unknown function \x27cancel_booking\x27", []) :=
  execute_tool_unknown_name [] "cancel_booking" ⟨"", "", 0⟩
    (by decide) (by decide)

/-- C4 counterexample: on the generic exception path of
`process_and_respond` the frame sent to the client is `"Error: "` followed
verbatim by the raw internal exception text (here a `KeyError` rendering),
not a polite chat message — refuting the claim that the user never sees raw
internal error text on non-transport failure paths. -/
theorem raw_error_text_sent_cex :
    process_and_respond_sends (TurnOutcome.exn "KeyError: \x27user_name\x27")
      = ["Error: KeyError: \x27user_name\x27"] := rfl

/-- C4 (amended): on a processing failure other than cancellation the client
is sent `"Error: "` plus the raw exception text; a cancelled turn sends
nothing; a connection-level failure sends `"An error occurred: "` plus the
raw text, unless that send itself fails, in which case the connection is
closed without sending anything. -/
theorem failure_path_send_texts (e : String) :
    process_and_respond_sends (TurnOutcome.exn e) = ["Error: " ++ e] ∧
    process_and_respond_sends TurnOutcome.cancelled = [] ∧
    endpoint_failure_sends false e = ["An error occurred: " ++ e] ∧
    endpoint_failure_sends true e = [] :=
  ⟨rfl, rfl, rfl, rfl⟩

/-- C1: evaluation of the connection state machine at the failing schedule.
Input `A` is received and its task starts (running its synchronous prefix —
`process_message` — which appends the transcript pair for `A` before any
cancellation point); input `B` arrives while that task is suspended at its
error send, cancels it, and the merged turn over `"A\nB"` runs and delivers.
The resulting transcript holds TWO entry pairs — the superseded turn's pair
for `A` and the merged pair — contradicting the claim that the superseded
turn appends nothing and only one pair exists; moreover the one delivered
frame is not the agent's response but the `TypeError` error frame, because
`await` of the synchronous `process_message` always raises.  The final
conjunct shows the single-pair transcript does arise on the schedule where
`B` is received before the first task has started. -/
theorem preemption_superseded_turn_appends :
    (wsRun (fun ctx => "reply to: " ++ ctx)
      [WsEv.recv "A", WsEv.start, WsEv.recv "B", WsEv.start,
       WsEv.deliver]).history
      = [⟨"user", "A"⟩, ⟨"model", "reply to: A"⟩,
         ⟨"user", "A\nB"⟩, ⟨"model", "reply to: A\nB"⟩] ∧
    (wsRun (fun ctx => "reply to: " ++ ctx)
      [WsEv.recv "A", WsEv.start, WsEv.recv "B", WsEv.start,
       WsEv.deliver]).sent
      = ["Error: " ++ awaitStrError] ∧
    (wsRun (fun ctx => "reply to: " ++ ctx)
      [WsEv.recv "A", WsEv.recv "B", WsEv.start, WsEv.deliver]).history
      = [⟨"user", "A\nB"⟩, ⟨"model", "reply to: A\nB"⟩] :=
  ⟨rfl, rfl, rfl⟩

/-- C3 counterexample: when the model call raises (`"boom"`), the returned
string is the apology, but the stored conversation history is untouched —
the user's message and the apology are NOT appended, refuting the claim that
context is preserved on this path. -/
theorem apology_without_history_cex :
    (process_message (fun _ => Except.error "boom")
      ⟨none, false, []⟩ "hi").1 = apology "boom" ∧
    get_conversation_history
      (process_message (fun _ => Except.error "boom")
        ⟨none, false, []⟩ "hi").2.store = [] :=
  ⟨rfl, rfl⟩

/-- C3 (amended): any exception raised while talking to the model is caught
by `process_message` and converted to the user-facing apology string, which
is returned as a completed (not failed) Turn — but the conversation history
is NOT updated on this path: the stored transcript is exactly what it was
before the call. -/
theorem model_error_returns_apology (gen : Gen) (st : ChatState) (u e : String)
    (h : model_error gen st u = some e) :
    (process_message gen st u).1 = apology e ∧
    (process_message gen st u).2.store = st.store := by
  simp only [model_error] at h
  simp only [process_message]
  cases hg : gen (build_chat_history_for_gemini
      (get_conversation_history st.store) ++ [Content.user u]) with
  | error e' =>
    simp only [hg, Option.some.injEq] at h
    subst h
    simp [hg]
  | ok r =>
    simp only [hg] at h
    cases hl : (toolLoop gen MAX_TOOL_ITERATIONS
        (build_chat_history_for_gemini
          (get_conversation_history st.store) ++ [Content.user u])
        r st.db).response with
    | error e' =>
      simp only [hl, Option.some.injEq] at h
      subst h
      simp [hg, hl]
    | ok rf =>
      simp only [hl] at h
      cases h

/-- C3 witness: a model that raises `"kaput"` over a one-message history
yields the apology and the stored history is unchanged. -/
theorem model_error_returns_apology_witness :
    (process_message (fun _ => Except.error "kaput")
      ⟨some [⟨"user", "x"⟩], false, []⟩ "hello").1 = apology "kaput" ∧
    (process_message (fun _ => Except.error "kaput")
      ⟨some [⟨"user", "x"⟩], false, []⟩ "hello").2.store
      = some [⟨"user", "x"⟩] :=
  model_error_returns_apology (fun _ => Except.error "kaput")
    ⟨some [⟨"user", "x"⟩], false, []⟩ "hello" "kaput" rfl

/-- C10: when writing the history to Redis raises, the exception is caught
inside the history helpers (`save_conversation_history`, reached through
`append_to_history`) and `process_message` still completes, returning
exactly the answer it would return with a healthy store; the messages that
failed to write are silently dropped — the stored value is unchanged. -/
theorem history_write_failure_is_silent (gen : Gen) (st : ChatState)
    (u : String) (h : st.storeWriteFails = true) :
    (process_message gen st u).1
      = (process_message gen { st with storeWriteFails := false } u).1 ∧
    (process_message gen st u).2.store = st.store := by
  obtain ⟨store, fails, db⟩ := st
  simp only at h
  subst h
  simp only [process_message]
  cases hg : gen (build_chat_history_for_gemini
      (get_conversation_history store) ++ [Content.user u]) with
  | error e => simp [hg]
  | ok r =>
    cases hl : (toolLoop gen MAX_TOOL_ITERATIONS
        (build_chat_history_for_gemini
          (get_conversation_history store) ++ [Content.user u])
        r db).response with
    | error e => simp [hg, hl]
    | ok rf =>
      simp [hg, hl, append_to_history, save_conversation_history]

/-- C10 witness: with a failing store, a plain-text model answer is still
returned (identical to the healthy-store run) and the stored history keeps
its old value. -/
theorem history_write_failure_is_silent_witness :
    (process_message (fun _ => Except.ok [Part.text "Hello!"])
      ⟨some [], true, []⟩ "hi").1
      = (process_message (fun _ => Except.ok [Part.text "Hello!"])
        ⟨some [], false, []⟩ "hi").1 ∧
    (process_message (fun _ => Except.ok [Part.text "Hello!"])
      ⟨some [], true, []⟩ "hi").2.store = some [] :=
  history_write_failure_is_silent (fun _ => Except.ok [Part.text "Hello!"])
    ⟨some [], true, []⟩ "hi" rfl

/-- C5: for a valid (date, hour) pair with hour in `[9, 16]` and no booking
at that start time, `book_slot` appends exactly one row and returns the
confirmation string carrying the newly assigned id, which differs from every
existing id; rebooking the identical (date, hour) returns the conflict
message naming the conflicting time and leaves the table unchanged. -/
theorem book_slot_insert_then_conflict (db : Db) (u1 u2 ds : String)
    (h : Int) (d : Date) (hlo : 9 ≤ h) (hhi : h ≤ 16)
    (hp : parseDate ds = some d)
    (hfree : db.find? (fun b => b.start_time == (⟨d, h⟩ : StartTime)) = none) :
    book_slot db u1 ds h
      = (checkMark ++ " Booking confirmed! Confirmation ID: "
          ++ toString (nextId db) ++ ". " ++ u1 ++ " booked from "
          ++ toString h ++ ":00 to " ++ toString (h + 1) ++ ":00 on "
          ++ ds ++ ".",
         db ++ [⟨nextId db, u1, ⟨d, h⟩⟩]) ∧
    (∀ b ∈ db, b.id ≠ nextId db) ∧
    book_slot (db ++ [⟨nextId db, u1, ⟨d, h⟩⟩]) u2 ds h
      = ("Time slot conflicts with existing booking at " ++ fmtHM h ++ ".",
         db ++ [⟨nextId db, u1, ⟨d, h⟩⟩]) := by
  have hcond : ¬(h < 9 ∨ h > 16) := by omega
  refine ⟨?_, ?_, ?_⟩
  · simp only [book_slot, if_neg hcond, hp, hfree]
  · intro b hb
    have := id_le_maxId db b hb
    unfold nextId
    omega
  · have hfind : (db ++ [(⟨nextId db, u1, ⟨d, h⟩⟩ : Booking)]).find?
        (fun b => b.start_time == (⟨d, h⟩ : StartTime))
        = some ⟨nextId db, u1, ⟨d, h⟩⟩ := by
      rw [List.find?_append, hfree]
      simp
    simp only [book_slot, if_neg hcond, hp, hfind]

/-- C5 witness: on the empty table, booking (2026-01-20, 9) for Ann succeeds
with id 1 and rebooking the same slot for Bob reports the 09:00 conflict
without a second row. -/
theorem book_slot_insert_then_conflict_witness :
    book_slot [] "Ann" "2026-01-20" 9
      = (checkMark ++ " Booking confirmed! Confirmation ID: "
          ++ toString (nextId []) ++ ". " ++ "Ann" ++ " booked from "
          ++ toString (9 : Int) ++ ":00 to " ++ toString (9 + 1 : Int)
          ++ ":00 on " ++ "2026-01-20" ++ ".",
         [] ++ [⟨nextId [], "Ann", ⟨⟨2026, 1, 20⟩, 9⟩⟩]) ∧
    (∀ b ∈ ([] : Db), b.id ≠ nextId []) ∧
    book_slot ([] ++ [⟨nextId [], "Ann", ⟨⟨2026, 1, 20⟩, 9⟩⟩]) "Bob"
        "2026-01-20" 9
      = ("Time slot conflicts with existing booking at "
          ++ fmtHM 9 ++ ".",
         [] ++ [⟨nextId [], "Ann", ⟨⟨2026, 1, 20⟩, 9⟩⟩]) :=
  book_slot_insert_then_conflict [] "Ann" "Bob" "2026-01-20" 9 ⟨2026, 1, 20⟩
    (by decide) (by decide) rfl rfl

/-- C7: on a date with zero bookings `check_availability` lists all 8 slots
(9-10 through 16-17); after booking hour 9 on that date through `book_slot`
it lists exactly the other 7 slots; and the query is read-only so repetition
and order cannot change the result (the embedding returns no table). -/
theorem check_availability_slots (u ds : String) (d : Date)
    (hp : parseDate ds = some d) :
    check_availability [] ds
      = "Available slots on " ++ ds
        ++ ": " ++ "9:00-10:00, 10:00-11:00, 11:00-12:00, 12:00-13:00, 13:00-14:00, 14:00-15:00, 15:00-16:00, 16:00-17:00" ∧
    check_availability ((book_slot [] u ds 9).2) ds
      = "Available slots on " ++ ds
        ++ ": " ++ "10:00-11:00, 11:00-12:00, 12:00-13:00, 13:00-14:00, 14:00-15:00, 15:00-16:00, 16:00-17:00" := by
  constructor
  · simp only [check_availability, hp]
    rfl
  · have hdb : (book_slot [] u ds 9).2 = [⟨1, u, ⟨d, 9⟩⟩] := by
      simp only [book_slot, hp]
      rfl
    rw [hdb]
    simp only [check_availability, hp]
    have hfil : List.filter (fun b => inDayRange d b.start_time)
        [(⟨1, u, ⟨d, 9⟩⟩ : Booking)] = [⟨1, u, ⟨d, 9⟩⟩] := by
      simp [inDayRange]
    rw [hfil]
    rfl

/-- C7 witness: the two availability strings at the concrete date
2026-01-20. -/
theorem check_availability_slots_witness :
    check_availability [] "2026-01-20"
      = "Available slots on " ++ "2026-01-20"
        ++ ": " ++ "9:00-10:00, 10:00-11:00, 11:00-12:00, 12:00-13:00, 13:00-14:00, 14:00-15:00, 15:00-16:00, 16:00-17:00" ∧
    check_availability ((book_slot [] "Ann" "2026-01-20" 9).2) "2026-01-20"
      = "Available slots on " ++ "2026-01-20"
        ++ ": " ++ "10:00-11:00, 11:00-12:00, 12:00-13:00, 13:00-14:00, 14:00-15:00, 15:00-16:00, 16:00-17:00" :=
  check_availability_slots "Ann" "2026-01-20" ⟨2026, 1, 20⟩ rfl

/-- A model that answers every invocation with a response containing at
least one function call keeps the tool loop running: the loop consumes all
its fuel, and its final response again contains a function call and either
is the initial response or was itself produced by the model. -/
theorem toolLoop_keeps_function_calls (gen : Gen)
    (H : ∀ c, ∃ r, gen c = Except.ok r ∧ hasFunctionCall r = true) :
    ∀ (fuel : Nat) (current : List Content) (r : Response) (db : Db),
      hasFunctionCall r = true →
      (toolLoop gen fuel current r db).iterations = fuel ∧
      ∃ rf, (toolLoop gen fuel current r db).response = Except.ok rf
        ∧ hasFunctionCall rf = true
        ∧ (rf = r ∨ ∃ c, gen c = Except.ok rf) := by
  intro fuel
  induction fuel with
  | zero =>
    intro current r db hfc
    exact ⟨rfl, r, rfl, hfc, Or.inl rfl⟩
  | succ n ih =>
    intro current r db hfc
    have hne : r ≠ [] := by
      intro hnil
      subst hnil
      simp [hasFunctionCall] at hfc
    have hempty : r.isEmpty = false := by
      cases r with
      | nil => cases hne rfl
      | cons a l => rfl
    obtain ⟨r1, hr1, hfc1⟩ := H (current
      ++ [Content.modelParts r,
          Content.functionResponses (runToolCalls db r).1])
    have step : toolLoop gen (n + 1) current r db
        = ⟨(toolLoop gen n
              (current ++ [Content.modelParts r,
                Content.functionResponses (runToolCalls db r).1])
              r1 (runToolCalls db r).2).response,
           (toolLoop gen n
              (current ++ [Content.modelParts r,
                Content.functionResponses (runToolCalls db r).1])
              r1 (runToolCalls db r).2).db,
           (toolLoop gen n
              (current ++ [Content.modelParts r,
                Content.functionResponses (runToolCalls db r).1])
              r1 (runToolCalls db r).2).iterations + 1⟩ := by
      conv_lhs => rw [toolLoop]
      simp [hempty, hfc, hr1]
    obtain ⟨hit, rf, hresp, hfcf, hsrc⟩ := ih
      (current ++ [Content.modelParts r,
        Content.functionResponses (runToolCalls db r).1])
      r1 (runToolCalls db r).2 hfc1
    rw [step]
    refine ⟨by rw [hit], rf, by rw [hresp], hfcf, ?_⟩
    rcases hsrc with he | hex
    · subst he
      exact Or.inr ⟨_, hr1⟩
    · exact Or.inr hex

/-- C2 counterexample: a model satisfying the claim's hypothesis — it
requests a tool call on every invocation — while also attaching a text part
to each response: the loop still stops after exactly 5 tool-iterations, but
`process_message` then returns the model's own text `"Working on it."`, not
a deterministic fallback message, refuting the claim as stated. -/
theorem tool_cap_returns_model_text_cex :
    process_message_iterations
      (fun _ => Except.ok
        [Part.functionCall ⟨"check_availability", ⟨"", "2026-01-20", 9⟩⟩,
         Part.text "Working on it."])
      ⟨none, false, []⟩ "Book me a slot" = 5 ∧
    (process_message
      (fun _ => Except.ok
        [Part.functionCall ⟨"check_availability", ⟨"", "2026-01-20", 9⟩⟩,
         Part.text "Working on it."])
      ⟨none, false, []⟩ "Book me a slot").1 = "Working on it." :=
  ⟨rfl, rfl⟩

/-- C2 (amended): if the model requests at least one tool call on every
invocation, `process_message` terminates after exactly 5 tool-iterations
(`MAX_TOOL_ITERATIONS`) rather than looping unboundedly; when moreover none
of the model's responses carries a text part alongside its tool calls, the
string returned is the deterministic fallback `"No Response"` rather than a
model answer. -/
theorem tool_loop_cap (gen : Gen) (st : ChatState) (u : String)
    (H : ∀ c, ∃ r, gen c = Except.ok r ∧ hasFunctionCall r = true) :
    process_message_iterations gen st u = 5 ∧
    ((∀ c r, gen c = Except.ok r → ∀ p ∈ r, p.isFunctionCall = true) →
      (process_message gen st u).1 = "No Response") := by
  obtain ⟨r0, hr0, hfc0⟩ := H (build_chat_history_for_gemini
    (get_conversation_history st.store) ++ [Content.user u])
  obtain ⟨hit, rf, hresp, hfcf, hsrc⟩ := toolLoop_keeps_function_calls gen H
    MAX_TOOL_ITERATIONS
    (build_chat_history_for_gemini
      (get_conversation_history st.store) ++ [Content.user u])
    r0 st.db hfc0
  constructor
  · simp only [process_message_iterations, hr0]
    exact hit
  · intro Htext
    have hall : ∀ p ∈ rf, p.isFunctionCall = true := by
      rcases hsrc with he | ⟨c, hc⟩
      · subst he
        exact Htext _ _ hr0
      · exact Htext _ _ hc
    simp only [process_message, hr0, hresp,
      respText_eq_none_of_all_fc rf hall]

/-- C2 witness: a simulated model that always asks only for
`check_availability` makes the turn stop after exactly 5 iterations with
the fallback answer. -/
theorem tool_loop_cap_witness :
    process_message_iterations
      (fun _ => Except.ok
        [Part.functionCall ⟨"check_availability", ⟨"", "2026-01-20", 9⟩⟩])
      ⟨none, false, []⟩ "Book me a slot" = 5 ∧
    (process_message
      (fun _ => Except.ok
        [Part.functionCall ⟨"check_availability", ⟨"", "2026-01-20", 9⟩⟩])
      ⟨none, false, []⟩ "Book me a slot").1 = "No Response" := by
  have h := tool_loop_cap
    (fun _ => Except.ok
      [Part.functionCall ⟨"check_availability", ⟨"", "2026-01-20", 9⟩⟩])
    ⟨none, false, []⟩ "Book me a slot"
    (fun _ => ⟨[Part.functionCall ⟨"check_availability", ⟨"", "2026-01-20", 9⟩⟩],
      rfl, by decide⟩)
  refine ⟨h.1, h.2 ?_⟩
  intro c r hr
  injection hr with h2
  subst h2
  decide

/-- C8: in every bookings table reachable through `book_slot` from the empty
table, start times are pairwise distinct (at most one booking per exact
start time) and every stored hour lies in `[9, 17)`, i.e. is one of the 8
valid start hours 9 through 16, each slot one hour. -/
theorem booking_store_invariant (db : Db) (hr : ReachableDb db) :
    db.Pairwise (fun a b => a.start_time ≠ b.start_time) ∧
    ∀ b ∈ db, 9 ≤ b.start_time.hour ∧ b.start_time.hour < 17 := by
  induction hr with
  | init => exact ⟨List.Pairwise.nil, by simp⟩
  | book db u ds hh hdb ih =>
    by_cases hcond : hh < 9 ∨ hh > 16
    · rw [book_slot_invalid_hour db u ds hh hcond]
      exact ih
    · cases hp : parseDate ds with
      | none =>
        have : (book_slot db u ds hh).2 = db := by
          simp only [book_slot, if_neg hcond, hp]
        rw [this]
        exact ih
      | some d =>
        cases hf : db.find?
            (fun b => b.start_time == (⟨d, hh⟩ : StartTime)) with
        | some b =>
          have : (book_slot db u ds hh).2 = db := by
            simp only [book_slot, if_neg hcond, hp, hf]
          rw [this]
          exact ih
        | none =>
          have hins : (book_slot db u ds hh).2
              = db ++ [⟨nextId db, u, ⟨d, hh⟩⟩] := by
            simp only [book_slot, if_neg hcond, hp, hf]
          rw [hins]
          constructor
          · rw [List.pairwise_append]
            refine ⟨ih.1, List.pairwise_singleton _ _, ?_⟩
            intro a ha b hb
            have hb' : b = ⟨nextId db, u, ⟨d, hh⟩⟩ := by
              simpa using hb
            subst hb'
            have := List.find?_eq_none.mp hf a ha
            simpa using this
          · intro b hb
            rcases List.mem_append.mp hb with h1 | h2
            · exact ih.2 b h1
            · have hb' : b = ⟨nextId db, u, ⟨d, hh⟩⟩ := by
                simpa using h2
              subst hb'
              exact (by omega : 9 ≤ hh ∧ hh < 17)

/-- C8 counterexample: the claim counts "9 distinct valid start hours, 9
through 16 inclusive", but the hours of the day for which `book_slot`
actually inserts a row (on an empty table with a valid date) are exactly 8:
the integers 9 through 16 inclusive form 8 start hours, not 9. -/
theorem valid_start_hours_are_eight_cex :
    ((List.range 24).filter
      (fun h =>
        (book_slot [] "Ann" "2026-01-20" ((h : Nat) : Int)).2.length == 1)).length
      = 8 := rfl

/-- C8 witness: the table after one successful booking is reachable and
satisfies the invariant. -/
theorem booking_store_invariant_witness :
    ((book_slot [] "Ann" "2026-01-20" 9).2).Pairwise
      (fun a b => a.start_time ≠ b.start_time) ∧
    ∀ b ∈ (book_slot [] "Ann" "2026-01-20" 9).2,
      9 ≤ b.start_time.hour ∧ b.start_time.hour < 17 :=
  booking_store_invariant (book_slot [] "Ann" "2026-01-20" 9).2
    (ReachableDb.book [] "Ann" "2026-01-20" 9 ReachableDb.init)

end BookingAgent
